import Mathlib

/-!
Shallow embedding of the craftlog LeWitt-grid rendering engine
(src/src/main.js sections: lewitt module, config module, helpers module,
normalizer in src/unnamed/part_000) over exact rational arithmetic.

JS `number` is modelled as `ℚ` (IEEE doubles are deterministic; the claims
settled here do not depend on rounding of transcendental functions, which are
abstracted into a `MathOps` record of oracle functions).  JS objects are
modelled as structures; a JS property that a given constructor never sets is
modelled as an `Option` field holding `none` (reading it yields `undefined`).
Mutation of shared event objects by `prepareEvents` is modelled with an
explicit heap: the input array is a `List` of events and array-of-references
views are lists of indices into it.
-/

namespace Craftlog

/-- JS helper `clamp(value, min, max) = Math.max(min, Math.min(max, value))`
(src helpers module). -/
def clamp (value lo hi : ℚ) : ℚ := max lo (min hi value)

/-- JS helper `lerp(a, b, t) = a + (b - a) * t` (src helpers module). -/
def lerp (a b t : ℚ) : ℚ := a + (b - a) * t

/-- JS `Math.round(x)` = `⌊x + 1/2⌋` (round half toward +∞), exact on the
arguments arising here. -/
def jsRound (q : ℚ) : ℤ := ⌊q + 1/2⌋

/-- Reinterpret a value mod 2^32 as a signed 32-bit integer (JS `ToInt32`). -/
def toInt32 (z : ℤ) : ℤ :=
  let m := z % 4294967296
  if m < 2147483648 then m else m - 4294967296

/-- JS helper `hashString` (src helpers module): rolling
`hash = ((hash << 5) - hash) + charCode` with `hash = hash & hash` forcing the
accumulator to Int32 each step, then `Math.abs`.  `charCodeAt` is the UTF-16
code unit, equal to the code point for the ASCII event-kind strings used. -/
def hashString (s : String) : ℕ :=
  (s.toList.foldl (fun (h : ℤ) c => toInt32 (h * 32 - h + c.toNat)) 0).natAbs

/-- Oracle record for the JS `Math` transcendental functions and `Math.PI`.
Every use in the source is routed through one fixed record, so each render is
a pure function of its inputs for any record value; facts such as
`log1p 0 = 0` are taken as hypotheses where a claim needs them. -/
structure MathOps where
  pi : ℚ
  cos : ℚ → ℚ
  sin : ℚ → ℚ
  sqrt : ℚ → ℚ
  log1p : ℚ → ℚ

/-- Concrete `MathOps` instance used to instantiate witnesses (any fixed
record makes the render deterministic; this one also satisfies
`log1p 0 = 0` and `sqrt 0 = 0`). -/
def mathOpsW : MathOps where
  pi := 3
  cos := fun q => q
  sin := fun q => q
  sqrt := fun q => q
  log1p := fun q => q

/-! ## Data model (normalizer, src/unnamed/part_000) -/

/-- `raw.delta` fields (all optional in the log record). -/
structure RawDelta where
  added_chars : Option ℕ
  deleted_chars : Option ℕ
  added_lines : Option ℕ
  deleted_lines : Option ℕ
deriving DecidableEq

/-- `raw.flags` fields (all optional in the log record). -/
structure RawFlags where
  is_paste_like : Option Bool
  is_undo_like : Option Bool
  is_redo_like : Option Bool
deriving DecidableEq

/-- `raw.file` subobject. -/
structure FileInfo where
  path : Option String
  lang : Option String
deriving DecidableEq

/-- One raw JSON log record (spec §3 RawEvent). -/
structure RawEvent where
  ts : ℤ
  elapsed_ms : Option ℤ
  event : String
  origin_mode : Option String
  kind : Option String
  file : Option FileInfo
  delta : Option RawDelta
  flags : Option RawFlags
  detail : Option String
  session_id : Option String
  workspace_id : Option String
  prompt : Option String
  toMode : Option String
deriving DecidableEq

/-- Normalized `delta` (zero-defaulted by `normalizeEvent`). -/
structure Delta where
  added_chars : ℕ
  deleted_chars : ℕ
  added_lines : ℕ
  deleted_lines : ℕ
deriving DecidableEq

/-- Normalized `flags` (false-defaulted by `normalizeEvent`). -/
structure Flags where
  is_paste_like : Bool
  is_undo_like : Bool
  is_redo_like : Bool
deriving DecidableEq

/-- NormalizedEvent.  `severity` is absent until `parseJsonl` assigns it;
`prompt` and `to` are properties `normalizeEvent` never sets (reading them on
a normalized event yields `undefined`); `hasSnapshotAfter` and
`aiPromptLength` are properties only ever set by `prepareEvents`. -/
structure NEvent where
  ts : ℤ
  elapsed_ms : Option ℤ
  event : String
  origin_mode : Option String
  kind : Option String
  file_path : Option String
  lang : Option String
  delta : Option Delta
  flags : Option Flags
  detail : Option String
  session_id : Option String
  workspace_id : Option String
  raw : RawEvent
  severity : Option ℚ
  prompt : Option String
  toMode : Option String
  hasSnapshotAfter : Option Bool
  aiPromptLength : Option ℕ
deriving DecidableEq

/-- `normalizeEvent(raw)` (src/unnamed/part_000): null-safe defaulting of the
raw fields.  The returned object literal has no `severity`, `prompt`, `to`,
`hasSnapshotAfter` or `aiPromptLength` keys, hence those are `none`. -/
def normalizeEvent (raw : RawEvent) : NEvent where
  ts := raw.ts
  elapsed_ms := raw.elapsed_ms
  event := raw.event
  origin_mode := raw.origin_mode
  kind := raw.kind
  file_path := (raw.file.map (·.path)).join
  lang := (raw.file.map (·.lang)).join
  delta := raw.delta.map fun d =>
    { added_chars := d.added_chars.getD 0
      deleted_chars := d.deleted_chars.getD 0
      added_lines := d.added_lines.getD 0
      deleted_lines := d.deleted_lines.getD 0 }
  flags := raw.flags.map fun f =>
    { is_paste_like := f.is_paste_like.getD false
      is_undo_like := f.is_undo_like.getD false
      is_redo_like := f.is_redo_like.getD false }
  detail := raw.detail
  session_id := raw.session_id
  workspace_id := raw.workspace_id
  raw := raw
  severity := none
  prompt := none
  toMode := none
  hasSnapshotAfter := none
  aiPromptLength := none

/-- `calculateSeverity(event)` (src/unnamed/part_000), with `Math.sqrt` and
`Math.log1p` from the `MathOps` oracle.  `event.flags || {}` and
`event.delta || {}` default missing objects. -/
def calculateSeverity (m : MathOps) (e : NEvent) : ℚ :=
  if e.event = "policy_violation" then 1
  else if e.event = "edit" then
    let flags := e.flags.getD ⟨false, false, false⟩
    if flags.is_undo_like then 0.15
    else if flags.is_redo_like then 0.25
    else if flags.is_paste_like then 0.85
    else
      let delta := e.delta.getD ⟨0, 0, 0, 0⟩
      let chars : ℚ := delta.added_chars + delta.deleted_chars
      let normalized := m.log1p chars / m.log1p 30000
      let severity := clamp (m.sqrt normalized) 0 1
      max 0.1 severity
  else if e.event = "snapshot" then 0.2
  else if e.event = "session_start" then 0.4
  else if e.event = "session_pause" then 0.3
  else if e.event = "session_resume" then 0.35
  else if e.event = "mode_change" then 0.3
  else 0.5

/-- One line of `parseJsonl` (src/unnamed/part_000): normalize the raw record
then assign `normalized.severity = calculateSeverity(normalized)`. -/
def parseLine (m : MathOps) (raw : RawEvent) : NEvent :=
  let n := normalizeEvent raw
  { n with severity := some (calculateSeverity m n) }

/-! ## Configuration (src config module, `LEWITT_CONFIG`) -/

/-- `LEWITT_CONFIG.hatching` constants. -/
structure HatchConfig where
  edit_human : ℚ
  edit_ai : ℚ
  snapshot : ℚ
  mode_change : ℚ
  policy_violation : List ℚ
  anglesDefault : List ℚ
  spacingMin : ℚ
  spacingMax : ℚ
  spacingClampMin : ℚ
  spacingClampMax : ℚ
  weightMin : ℚ
  weightMax : ℚ
  policyViolationWeightBonus : ℚ
  alphaMin : ℚ
  alphaMax : ℚ
  cellBorderWeight : ℚ
  cellBorderAlpha : ℚ
deriving DecidableEq

/-- `LEWITT_CONFIG.motifs` constants. -/
structure MotifConfig where
  radialLinesMaxCount : ℤ
  radialLinesMinLength : ℚ
  radialLinesMaxLength : ℚ
  undoLineAlpha : ℚ
  pasteLineWeightMultiplier : ℚ
deriving DecidableEq

/-- The `LEWITT_CONFIG` shape (the source field `marginRatio` is named
`marginFrac` here). -/
structure LewittConfig where
  marginFrac : ℚ
  maxEvents : ℕ
  sampling : String
  order : String
  minGridSize : ℕ
  maxGridSize : ℕ
  hatching : HatchConfig
  motifs : MotifConfig
  seed : ℕ
deriving DecidableEq

/-- The default `LEWITT_CONFIG` value from the config module. -/
def LEWITT_CONFIG : LewittConfig where
  marginFrac := 0.05
  maxEvents := 530
  sampling := "uniform"
  order := "time"
  minGridSize := 5
  maxGridSize := 27
  hatching :=
    { edit_human := 45
      edit_ai := 135
      snapshot := 0
      mode_change := 90
      policy_violation := [45, 135]
      anglesDefault := [0, 45, 90, 135]
      spacingMin := 4
      spacingMax := 18
      spacingClampMin := 3
      spacingClampMax := 24
      weightMin := 0.6
      weightMax := 3.0
      policyViolationWeightBonus := 1.0
      alphaMin := 40
      alphaMax := 200
      cellBorderWeight := 0.5
      cellBorderAlpha := 25 }
  motifs :=
    { radialLinesMaxCount := 12
      radialLinesMinLength := 0.05
      radialLinesMaxLength := 0.35
      undoLineAlpha := 80
      pasteLineWeightMultiplier := 2.5 }
  seed := 0

/-! ## Grid size and hatch parameters (src lewitt module) -/

/-- Natural-number clamp, `clamp(n, min, max)` with `n = round(sqrt k)`. -/
def clampNat (v lo hi : ℕ) : ℕ := max lo (min hi v)

/-- `Math.round(Math.sqrt k)` for a natural `k`: the integer nearest `√k`.
Since `√k` is never a half-integer, this is `s = ⌊√k⌋` when `k ≤ s² + s`
(i.e. `√k < s + 1/2`) and `s + 1` otherwise; `Math.sqrt` is correctly rounded
and `k ≤ 530` keeps the double result far from any rounding boundary. -/
def roundSqrt (k : ℕ) : ℕ :=
  let s := Nat.sqrt k
  if k ≤ s * s + s then s else s + 1

/-- `calculateGridSize(eventCount, config)` (src lewitt module):
`clamp(round(sqrt(min(eventCount, maxEvents))), minGridSize, maxGridSize)`. -/
def calculateGridSize (eventCount : ℕ) (config : LewittConfig) : ℕ :=
  let k := min eventCount config.maxEvents
  let n := roundSqrt k
  clampNat n config.minGridSize config.maxGridSize

/-- Result record of `getHatchParams` (`alpha` is `Math.round`ed). -/
structure HatchParams where
  spacing : ℚ
  weight : ℚ
  alpha : ℤ
deriving DecidableEq

/-- `getHatchParams(severity)` (src lewitt module); reads the module-level
`LEWITT_CONFIG.hatching` constants. -/
def getHatchParams (severity : ℚ) : HatchParams :=
  let h := LEWITT_CONFIG.hatching
  { spacing := clamp (lerp h.spacingMax h.spacingMin severity)
      h.spacingClampMin h.spacingClampMax
    weight := lerp h.weightMin h.weightMax severity
    alpha := jsRound (lerp h.alphaMin h.alphaMax severity) }

/-- `getHatchAngle(event, rng)` (src lewitt module).  The `rng` argument is
never used by the source body.  Returns either a single angle (`Sum.inl`) or
the cross-hatch pair array (`Sum.inr`).  An `edit` whose `origin_mode` is
neither `human` nor `ai` falls through to the hash-based default. -/
def getHatchAngle (e : NEvent) : ℚ ⊕ List ℚ :=
  let angles := LEWITT_CONFIG.hatching
  if e.event = "edit" ∧ e.origin_mode = some "human" then .inl angles.edit_human
  else if e.event = "edit" ∧ e.origin_mode = some "ai" then .inl angles.edit_ai
  else if e.event = "snapshot" then .inl angles.snapshot
  else if e.event = "mode_change" then .inl angles.mode_change
  else if e.event = "policy_violation" then .inr angles.policy_violation
  else
    let hash := hashString e.event
    .inl (angles.anglesDefault.getD (hash % angles.anglesDefault.length) 0)

/-! ## Geometric primitives (src lewitt module) -/

/-- One iteration of the Liang–Barsky half-plane loop in `clipLineToRect`:
state is the current parametric interval `(t0, t1)`; `none` is the source's
early `return null`. -/
def lbStep (p q : ℚ) : ℚ × ℚ → Option (ℚ × ℚ)
  | (t0, t1) =>
    if p = 0 then
      if q < 0 then none else some (t0, t1)
    else
      let t := q / p
      if p < 0 then
        if t > t1 then none
        else if t > t0 then some (t, t1) else some (t0, t1)
      else
        if t < t0 then none
        else if t < t1 then some (t0, t) else some (t0, t1)

/-- The four half-plane tests of `clipLineToRect` chained in the source's
order (left, right, top, bottom), narrowing the interval from `(0, 1)`. -/
def lbChain (dx dy x1 y1 rx ry rw rh : ℚ) : Option (ℚ × ℚ) :=
  (((lbStep (-dx) (x1 - rx) (0, 1)).bind
      (lbStep dx (rx + rw - x1))).bind
      (lbStep (-dy) (y1 - ry))).bind
      (lbStep dy (ry + rh - y1))

/-- `clipLineToRect(x1, y1, x2, y2, rx, ry, rw, rh)` (src lewitt module):
Liang–Barsky clip of a segment to an axis-aligned rectangle.  `none` means
the segment is rejected, otherwise the clipped endpoints are returned. -/
def clipLineToRect (x1 y1 x2 y2 rx ry rw rh : ℚ) : Option (ℚ × ℚ × ℚ × ℚ) :=
  let dx := x2 - x1
  let dy := y2 - y1
  match lbChain dx dy x1 y1 rx ry rw rh with
  | none => none
  | some (t0, t1) =>
      some (x1 + t0 * dx, y1 + t0 * dy, x1 + t1 * dx, y1 + t1 * dy)

/-- Axis-aligned rectangle `{x, y, w, h}`. -/
structure JsRect where
  x : ℚ
  y : ℚ
  w : ℚ
  h : ℚ
deriving DecidableEq

/-- The closed-rectangle membership test used by `drawLineWithRectHole` for
`p1Inside` / `p2Inside`. -/
def pointInRect (px py : ℚ) (r : JsRect) : Prop :=
  r.x ≤ px ∧ px ≤ r.x + r.w ∧ r.y ≤ py ∧ py ≤ r.y + r.h

instance (px py : ℚ) (r : JsRect) : Decidable (pointInRect px py r) := by
  unfold pointInRect; infer_instance

/-- One hole-boundary intersection record `{t, x, y}`. -/
structure HoleInter where
  t : ℚ
  x : ℚ
  y : ℚ
deriving DecidableEq

instance : Inhabited HoleInter := ⟨⟨0, 0, 0⟩⟩

/-- The intersection list built by `drawLineWithRectHole`: candidate
parameters against the hole's left, right, top and bottom edges, pushed in
that order, each kept when `0 ≤ t ≤ 1` and the hit point lies within the
edge's extent.  (The source's unused local `t` on the top edge is dead code
and is omitted; `tFixed` is what is pushed.) -/
def holeIntersections (x1 y1 x2 y2 : ℚ) (r : JsRect) : List HoleInter :=
  let dx := x2 - x1
  let dy := y2 - y1
  let rx2 := r.x + r.w
  let ry2 := r.y + r.h
  let left : List HoleInter :=
    if dx ≠ 0 then
      let t := (r.x - x1) / dx
      if 0 ≤ t ∧ t ≤ 1 then
        let y := y1 + t * dy
        if r.y ≤ y ∧ y ≤ ry2 then [⟨t, r.x, y⟩] else []
      else []
    else []
  let right : List HoleInter :=
    if dx ≠ 0 then
      let t := (rx2 - x1) / dx
      if 0 ≤ t ∧ t ≤ 1 then
        let y := y1 + t * dy
        if r.y ≤ y ∧ y ≤ ry2 then [⟨t, rx2, y⟩] else []
      else []
    else []
  let top : List HoleInter :=
    if dy ≠ 0 then
      let tFixed := (r.y - y1) / dy
      if 0 ≤ tFixed ∧ tFixed ≤ 1 then
        let x := x1 + tFixed * dx
        if r.x ≤ x ∧ x ≤ rx2 then [⟨tFixed, x, r.y⟩] else []
      else []
    else []
  let bottom : List HoleInter :=
    if dy ≠ 0 then
      let tFixed := (ry2 - y1) / dy
      if 0 ≤ tFixed ∧ tFixed ≤ 1 then
        let x := x1 + tFixed * dx
        if r.x ≤ x ∧ x ≤ rx2 then [⟨tFixed, x, ry2⟩] else []
      else []
    else []
  left ++ right ++ top ++ bottom

/-- Tail of the duplicate-removal loop: `last` is the most recently kept
intersection; a candidate is kept when its parameter differs from `last.t`
by more than `0.0001`. -/
def dedupeAux (last : HoleInter) : List HoleInter → List HoleInter
  | [] => []
  | i :: rest =>
      if |i.t - last.t| > 0.0001 then i :: dedupeAux i rest
      else dedupeAux last rest

/-- The duplicate removal in `drawLineWithRectHole` (`unique = ...`). -/
def dedupeInters : List HoleInter → List HoleInter
  | [] => []
  | i :: rest => i :: dedupeAux i rest

/-- The sorted, deduplicated intersection list (`intersections.sort` is the
stable JS array sort by `t`, modelled by the stable `List.mergeSort`). -/
def holeUnique (x1 y1 x2 y2 : ℚ) (r : JsRect) : List HoleInter :=
  dedupeInters ((holeIntersections x1 y1 x2 y2 r).mergeSort
    fun a b => decide (a.t ≤ b.t))

/-- `drawLineWithRectHole(g, x1, y1, x2, y2, rect)` (src lewitt module),
returning the list of segments passed to `g.line` instead of drawing them.
`unique[0]` / `unique[unique.length - 1]` are total in the source because the
surrounding branch guarantees nonemptiness; `headI`/`getLastI` model them. -/
def drawLineWithRectHole (x1 y1 x2 y2 : ℚ) (r : JsRect) :
    List (ℚ × ℚ × ℚ × ℚ) :=
  let p1Inside := decide (pointInRect x1 y1 r)
  let p2Inside := decide (pointInRect x2 y2 r)
  if p1Inside ∧ p2Inside then []
  else
    let intersections := holeIntersections x1 y1 x2 y2 r
    if intersections = [] then [(x1, y1, x2, y2)]
    else
      let unique := dedupeInters (intersections.mergeSort
        fun a b => decide (a.t ≤ b.t))
      if 2 ≤ unique.length then
        let enter := unique.headI
        let exits := unique.getLastI
        (if ¬p1Inside ∧ enter.t > 0.001 then [(x1, y1, enter.x, enter.y)]
         else []) ++
        (if ¬p2Inside ∧ exits.t < 0.999 then [(exits.x, exits.y, x2, y2)]
         else [])
      else if unique.length = 1 then
        let touch := unique.headI
        if p1Inside then [(touch.x, touch.y, x2, y2)]
        else [(x1, y1, touch.x, touch.y)]
      else []

/-! ## Seeded random stream (src lewitt module, `SeededRandom`) -/

/-- The Mulberry32 mixing rounds of `SeededRandom.next` applied to the
32-bit truncation of the advanced seed.  JS bitwise operators act on the
value mod 2^32 (bit patterns of `ToInt32`/`ToUint32` agree), `Math.imul` is
multiplication mod 2^32, and `t + Math.imul(...)` feeds the next bitwise op,
which again truncates mod 2^32. -/
def mulberryMix (u : ℕ) : ℕ :=
  let t1 := u ^^^ (u >>> 15)
  let t2 := (t1 * (u ||| 1)) % 4294967296
  let t3 := t2 ^^^ (t2 >>> 7)
  let t4 := (t3 * (t2 ||| 61)) % 4294967296
  let t5 := (t2 + t4) % 4294967296
  let t6 := t2 ^^^ t5
  t6 ^^^ (t6 >>> 14)

/-- `SeededRandom.next()`: `this.seed += 0x6D2B79F5` stores the unreduced
sum (exact as a double in any realistic draw count); the mixed 32-bit value
divided by 2^32 is returned together with the new stored seed. -/
def rngNext (seed : ℕ) : ℚ × ℕ :=
  let s := seed + 0x6D2B79F5
  ((mulberryMix (s % 4294967296) : ℚ) / 4294967296, s)

/-- `SeededRandom.range(min, max) = min + next() * (max - min)`. -/
def rngRange (seed : ℕ) (lo hi : ℚ) : ℚ × ℕ :=
  let (v, s) := rngNext seed
  (lo + v * (hi - lo), s)

/-! ## Event preparation (src lewitt module, `prepareEvents`)

The JS function sorts a shallow copy `[...events]` — an array of references
to the same event objects — and then mutates those shared objects in place
(`sorted[i].hasSnapshotAfter = true`, `evt.aiPromptLength = ...`).  The heap
model: the input array `l` is the heap, the sorted copy is the list of heap
indices `sortedIdx l`, and both annotation passes fold over those indices
updating the heap. -/

/-- Heap indices of the input events in the order of the time-sorted shallow
copy (`[...events].sort((a, b) => (a.ts || 0) - (b.ts || 0))`, a stable
sort; `ts || 0` only maps a zero/absent timestamp to 0). -/
def sortedIdx (l : List NEvent) : List ℕ :=
  (l.enum.mergeSort fun a b => decide (a.2.ts ≤ b.2.ts)).map Prod.fst

/-- First annotation pass: for consecutive positions of the sorted copy, an
`edit` immediately followed by a `snapshot` gets `hasSnapshotAfter = true`
(mutating the shared object, i.e. the heap entry). -/
def markSnapshots (heap : List NEvent) (ids : List ℕ) : List NEvent :=
  (ids.zip ids.tail).foldl
    (fun h ij =>
      match h.get? ij.1, h.get? ij.2 with
      | some a, some b =>
          if a.event = "edit" ∧ b.event = "snapshot" then
            h.set ij.1 { a with hasSnapshotAfter := some true }
          else h
      | _, _ => h)
    heap

/-- Second annotation pass: walk the sorted copy tracking
`currentAiPromptLength`; an `ai_prompt` with truthy (nonempty) `prompt` sets
it, a `mode_change` with `to === 'human'` resets it, and an `edit` with
`origin_mode === 'ai'` while it is positive receives `aiPromptLength`. -/
def attachAiPrompt (heap : List NEvent) (ids : List ℕ) : List NEvent :=
  (ids.foldl
    (fun (st : List NEvent × ℕ) i =>
      match st.1.get? i with
      | none => st
      | some evt =>
          if evt.event = "ai_prompt" ∧ evt.prompt.getD "" ≠ "" then
            (st.1, (evt.prompt.getD "").length)
          else if evt.event = "mode_change" ∧ evt.toMode = some "human" then
            (st.1, 0)
          else if evt.event = "edit" ∧ evt.origin_mode = some "ai" ∧ 0 < st.2 then
            (st.1.set i { evt with aiPromptLength := some st.2 }, st.2)
          else st)
    (heap, 0)).1

/-- The state of the input event objects after `prepareEvents` returns (both
annotation passes applied to the shared heap). -/
def heapAfterPrepare (l : List NEvent) : List NEvent :=
  attachAiPrompt (markSnapshots l (sortedIdx l)) (sortedIdx l)

/-- The fixed kind-priority list of the `type_blocks` ordering. -/
def typeOrder : List String :=
  ["edit", "snapshot", "mode_change", "policy_violation", "session_start",
   "session_pause", "session_resume"]

/-- `typeOrder.indexOf(event)`: position in the priority list, `-1` when the
kind is not listed (JS `indexOf`). -/
def typeIdx (e : NEvent) : ℤ :=
  match typeOrder.findIdx? (fun s => s == e.event) with
  | some i => (i : ℤ)
  | none => -1

/-- `prepareEvents(events, config)` (src lewitt module), returning the
prepared array's object values.  Stable JS comparator sorts are modelled by
`List.mergeSort`; `filtered[Math.floor(i * step)]` with
`step = filtered.length / config.maxEvents` is modelled over exact rationals
(the double `step` is deterministic either way). -/
def prepareEvents (l : List NEvent) (config : LewittConfig) : List NEvent :=
  let ids := sortedIdx l
  let heap := attachAiPrompt (markSnapshots l ids) ids
  let sorted := ids.filterMap fun i => heap.get? i
  let filtered0 := sorted.filter fun e => e.event == "edit"
  let filtered1 := if filtered0.length = 0 then sorted else filtered0
  let filtered2 :=
    if config.maxEvents < filtered1.length then
      if config.sampling = "uniform" then
        (List.range config.maxEvents).map fun i =>
          filtered1.getD
            (⌊(i : ℚ) * ((filtered1.length : ℚ) / (config.maxEvents : ℚ))⌋).toNat
            (normalizeEvent ⟨0, none, "", none, none, none, none, none, none,
              none, none, none, none⟩)
      else filtered1
    else filtered1
  if config.order = "time" then
    filtered2.mergeSort fun a b => decide (a.ts ≤ b.ts)
  else if config.order = "severity" then
    filtered2.mergeSort fun a b => decide (b.severity.getD 0 ≤ a.severity.getD 0)
  else if config.order = "type_blocks" then
    filtered2.mergeSort fun a b =>
      if typeIdx a = typeIdx b then decide (a.ts ≤ b.ts)
      else decide (typeIdx a ≤ typeIdx b)
  else filtered2

/-! ## Grid traversal and render (src lewitt module, `drawLeWittGrid`) -/

/-- The boustrophedon cell order of the nested row/column loops: row-major,
with `col = colIdx` on even rows and `col = gridSize - 1 - colIdx` on odd
rows. -/
def traversal (n : ℕ) : List (ℕ × ℕ) :=
  (List.range n).flatMap fun row =>
    (List.range n).map fun colIdx =>
      (row, if row % 2 = 0 then colIdx else n - 1 - colIdx)

/-- The cell/event association of the loop: `eventIdx` starts at 0 and is
incremented once per visited cell; the visited cell receives
`eventIdx < preparedEvents.length ? preparedEvents[eventIdx] : null`. -/
def cellAssignments (n : ℕ) (prepared : List NEvent) :
    List ((ℕ × ℕ) × Option NEvent) :=
  ((traversal n).foldl
    (fun (st : List ((ℕ × ℕ) × Option NEvent) × ℕ) pos =>
      (st.1 ++ [(pos, prepared.get? st.2)], st.2 + 1))
    ([], 0)).1

/-- One drawing-surface command (spec §6 rendering surface contract).
`stroke`/`fillG` are the two-argument grayscale forms; `fill` the rgba
form. -/
inductive Call where
  | stroke (g a : ℚ)
  | strokeWeight (w : ℚ)
  | fill (r g b a : ℚ)
  | fillG (g a : ℚ)
  | noFill
  | noStroke
  | strokeCapSquare
  | rect (x y w h : ℚ)
  | line (x1 y1 x2 y2 : ℚ)
  | ellipse (x y w h : ℚ)
deriving DecidableEq

/-- The runtime error raised by reading a property of `null`
(`console.log(event.aiPromptLength)` with a null cell event). -/
inductive JsErr where
  | nullRead
deriving DecidableEq

/-- `drawHatchLines(g, cellX, cellY, cellW, cellH, angleDeg, spacing, weight,
alpha, scale, eraseRatio)` (src lewitt module; the last parameter is named
`eraseFrac` here), returning the emitted drawing commands. -/
def drawHatchLines (m : MathOps)
    (cellX cellY cellW cellH angleDeg spacing weight alpha scale eraseFrac : ℚ) :
    List Call :=
  let angleRad := angleDeg * m.pi / 180
  let c := m.cos angleRad
  let s := m.sin angleRad
  let scaledSpacing := spacing * scale
  let scaledWeight := max 0.5 (weight * scale)
  let diag := m.sqrt (cellW * cellW + cellH * cellH)
  let centerX := cellX + cellW / 2
  let centerY := cellY + cellH / 2
  let eraseW := cellW * eraseFrac
  let eraseH := cellH * eraseFrac
  let eraseRect : Option JsRect :=
    if eraseFrac > 0 then
      some ⟨centerX - eraseW / 2, centerY - eraseH / 2, eraseW, eraseH⟩
    else none
  let numLines : ℤ := ⌈diag / scaledSpacing⌉ + 2
  let idxs : List ℤ :=
    (List.range (2 * numLines + 1).toNat).map fun j => (j : ℤ) - numLines
  [Call.stroke 0 alpha, Call.strokeWeight scaledWeight] ++
  idxs.flatMap fun i =>
    let offsetX := -s * (i : ℚ) * scaledSpacing
    let offsetY := c * (i : ℚ) * scaledSpacing
    let x1 := centerX + offsetX - c * diag
    let y1 := centerY + offsetY - s * diag
    let x2 := centerX + offsetX + c * diag
    let y2 := centerY + offsetY + s * diag
    match clipLineToRect x1 y1 x2 y2 cellX cellY cellW cellH with
    | none => []
    | some (a, b, cc, d) =>
        match eraseRect with
        | some r =>
            (drawLineWithRectHole a b cc d r).map fun sg =>
              Call.line sg.1 sg.2.1 sg.2.2.1 sg.2.2.2
        | none => [Call.line a b cc d]

/-- `getRayBoundaryIntersection(centerX, centerY, angle, ...)` (src lewitt
module): the far end of the clipped center-to-boundary ray. -/
def getRayBoundaryIntersection (m : MathOps)
    (centerX centerY angle cellX cellY cellW cellH : ℚ) : Option (ℚ × ℚ) :=
  let c := m.cos angle
  let s := m.sin angle
  let maxDist := m.sqrt (cellW * cellW + cellH * cellH)
  let x2 := centerX + c * maxDist
  let y2 := centerY + s * maxDist
  match clipLineToRect centerX centerY x2 y2 cellX cellY cellW cellH with
  | some (_, _, bx, byy) => some (bx, byy)
  | none => none

/-- `collectBoundaryPoints(cellX, cellY, cellW, cellH, count, rng)` (src
lewitt module): `count` random-angle rays; returns the boundary hits and the
advanced random-stream state. -/
def collectBoundaryPoints (m : MathOps) (cellX cellY cellW cellH : ℚ)
    (count : ℕ) (rng : ℕ) : List (ℚ × ℚ) × ℕ :=
  let centerX := cellX + cellW / 2
  let centerY := cellY + cellH / 2
  (List.range count).foldl
    (fun (st : List (ℚ × ℚ) × ℕ) _ =>
      let (angle, rng') := rngRange st.2 0 (m.pi * 2)
      match getRayBoundaryIntersection m centerX centerY angle
          cellX cellY cellW cellH with
      | some p => (st.1 ++ [p], rng')
      | none => (st.1, rng'))
    ([], rng)

/-- `drawPointSymmetricLines(g, ...)` (src lewitt module): same boundary-point
loop, then center-reflected lines and boundary dots. -/
def drawPointSymmetricLines (m : MathOps) (cellX cellY cellW cellH : ℚ)
    (count : ℕ) (rng : ℕ) (scale : ℚ) : List Call × ℕ :=
  let centerX := cellX + cellW / 2
  let centerY := cellY + cellH / 2
  let (points, rng') := collectBoundaryPoints m cellX cellY cellW cellH count rng
  let lineCalls := points.flatMap fun p =>
    let symX := 2 * centerX - p.1
    let symY := 2 * centerY - p.2
    match clipLineToRect p.1 p.2 symX symY cellX cellY cellW cellH with
    | some (a, b, c, d) => [Call.line a b c d]
    | none => []
  let pointSize := max 2 (4 * scale)
  ([Call.stroke 0 150, Call.strokeWeight (max 0.5 (1.2 * scale))] ++
   lineCalls ++ [Call.fillG 0 200, Call.noStroke] ++
   points.map (fun p => Call.ellipse p.1 p.2 pointSize pointSize), rng')

/-- `drawPolicyViolationCell(g, ..., severity, scale)` (src lewitt module):
red fill then both cross-hatch angles at bonus weight. -/
def drawPolicyViolationCell (m : MathOps) (cellX cellY cellW cellH : ℚ)
    (severity scale : ℚ) : List Call :=
  let params := getHatchParams severity
  let weight := params.weight + LEWITT_CONFIG.hatching.policyViolationWeightBonus
  [Call.noStroke, Call.fill 255 0 0 20, Call.rect cellX cellY cellW cellH] ++
  LEWITT_CONFIG.hatching.policy_violation.flatMap fun angle =>
    drawHatchLines m cellX cellY cellW cellH angle params.spacing weight
      (params.alpha : ℚ) scale 0

/-- `drawCell(g, event, cellX, cellY, cellW, cellH, rng, scale,
collectPoints)` (src lewitt module).  The stray `console.log(
event.aiPromptLength)` before the null-guard reads a property of `null`
whenever `event` is null, raising a TypeError; this is the `.error` case.
On success the value is (emitted commands, collected boundary points,
advanced random-stream state). -/
def drawCell (m : MathOps) (event : Option NEvent) (cellX cellY cellW cellH : ℚ)
    (rng : ℕ) (scale : ℚ) (collectPoints : Bool) :
    Except JsErr (List Call × List (ℚ × ℚ) × ℕ) :=
  let h := LEWITT_CONFIG.hatching
  let borderPair : ℚ × ℚ :=
    match event with
    | some e =>
        match e.aiPromptLength with
        | some len =>
            if 0 < len then
              let promptFrac := clamp (m.log1p (len : ℚ) / m.log1p 1000) 0 1
              (max 2 (lerp 3 10 promptFrac * scale),
               (jsRound (lerp 150 255 promptFrac) : ℚ))
            else (max 0.5 (h.cellBorderWeight * scale), h.cellBorderAlpha)
        | none => (max 0.5 (h.cellBorderWeight * scale), h.cellBorderAlpha)
    | none => (max 0.5 (h.cellBorderWeight * scale), h.cellBorderAlpha)
  match event with
  | none => .error JsErr.nullRead
  | some e =>
      let borderCalls := [Call.stroke 0 borderPair.2,
        Call.strokeWeight borderPair.1, Call.noFill,
        Call.rect cellX cellY cellW cellH]
      if e.event = "policy_violation" then
        .ok (borderCalls ++ drawPolicyViolationCell m cellX cellY cellW cellH
          (e.severity.getD 0) scale, [], rng)
      else
        let angle := getHatchAngle e
        let params := getHatchParams (e.severity.getD 0)
        let eraseFrac :=
          match e.delta with
          | some d =>
              if 0 < d.deleted_chars then
                clamp (m.log1p (d.deleted_chars : ℚ) / m.log1p 3000) 0 1 * 0.8
              else 0
          | none => 0
        let hatchCalls :=
          match angle with
          | .inl a => drawHatchLines m cellX cellY cellW cellH a params.spacing
              params.weight (params.alpha : ℚ) scale eraseFrac
          | .inr _ => []
        if e.event = "edit" then
          match e.delta with
          | some d =>
              let totalChange := d.added_chars + d.deleted_chars
              if 0 < totalChange then
                let count : ℤ := max 0 (min LEWITT_CONFIG.motifs.radialLinesMaxCount
                  (jsRound (m.log1p (totalChange : ℚ) / 1.6)))
                if 0 < count then
                  if collectPoints then
                    let (points, rng') := collectBoundaryPoints m cellX cellY
                      cellW cellH count.toNat rng
                    .ok (borderCalls ++ hatchCalls, points, rng')
                  else
                    let (calls2, rng') := drawPointSymmetricLines m cellX cellY
                      cellW cellH count.toNat rng scale
                    .ok (borderCalls ++ hatchCalls ++ calls2, [], rng')
                else .ok (borderCalls ++ hatchCalls, [], rng)
              else .ok (borderCalls ++ hatchCalls, [], rng)
          | none => .ok (borderCalls ++ hatchCalls, [], rng)
        else .ok (borderCalls ++ hatchCalls, [], rng)

/-- `connectNearestNeighbor(g, points, weight, alpha, scale)` (src lewitt
module): two nearest neighbors per point, each undirected edge drawn once. -/
def connectNearestNeighbor (m : MathOps) (points : List (ℚ × ℚ))
    (weight alpha scale : ℚ) : List Call :=
  if points.length < 2 then []
  else
    [Call.stroke 0 alpha, Call.strokeWeight (max 0.5 (weight * scale))] ++
    ((List.range points.length).foldl
      (fun (st : List Call × List (ℕ × ℕ)) i =>
        let current := points.getD i (0, 0)
        let distances := (List.range points.length).filterMap fun j =>
          if j = i then none
          else
            let cand := points.getD j (0, 0)
            some (j, m.sqrt ((cand.1 - current.1) * (cand.1 - current.1) +
              (cand.2 - current.2) * (cand.2 - current.2)))
        let sortedD := distances.mergeSort fun a b => decide (a.2 ≤ b.2)
        (sortedD.take 2).foldl
          (fun (st2 : List Call × List (ℕ × ℕ)) nb =>
            let key := (min i nb.1, max i nb.1)
            if key ∈ st2.2 then st2
            else
              let q := points.getD nb.1 (0, 0)
              (st2.1 ++ [Call.line current.1 current.2 q.1 q.2],
               st2.2 ++ [key]))
          st)
      ([], [])).1

/-- `drawPoints(g, points, size, alpha, scale)` (src lewitt module). -/
def drawPoints (points : List (ℚ × ℚ)) (size alpha scale : ℚ) : List Call :=
  let scaledSize := max 2 (size * scale)
  [Call.fillG 0 alpha, Call.noStroke] ++
  points.map fun p => Call.ellipse p.1 p.2 scaledSize scaledSize

/-- Result object of `drawLeWittGrid` plus the full ordered command list. -/
structure RenderResult where
  seed : ℕ
  gridSize : ℕ
  eventCount : ℕ
  cellWidth : ℚ
  cellHeight : ℚ
  boundaryPointCount : ℕ
  calls : List Call
deriving DecidableEq

/-- The cell loop of `drawLeWittGrid`; a thrown TypeError aborts the whole
loop (and render). -/
def runCells (m : MathOps) (cellW cellH margin scale : ℚ)
    (collectPoints : Bool) :
    List ((ℕ × ℕ) × Option NEvent) → ℕ → List Call → List (ℚ × ℚ) →
    Except JsErr (List Call × List (ℚ × ℚ) × ℕ)
  | [], rng, calls, pts => .ok (calls, pts, rng)
  | (pos, ev) :: rest, rng, calls, pts =>
      let cellX := margin + (pos.2 : ℚ) * cellW
      let cellY := margin + (pos.1 : ℚ) * cellH
      match drawCell m ev cellX cellY cellW cellH rng scale collectPoints with
      | .error err => .error err
      | .ok (cellCalls, cellPts, rng') =>
          runCells m cellW cellH margin scale collectPoints rest rng'
            (calls ++ cellCalls) (pts ++ cellPts)

/-- The body of `drawLeWittGrid` after the seed has been chosen.  The source
passes the literal `true` as `drawCell`'s `collectPoints` argument (its own
`usePointConnectionMode` parameter is not read in the body). -/
def drawLeWittGridSeeded (m : MathOps) (events : List NEvent)
    (canvasWidth canvasHeight : ℚ) (config : LewittConfig) (scale : ℚ)
    (seed : ℕ) : Except JsErr RenderResult :=
  let preparedEvents := prepareEvents events config
  let gridSize := calculateGridSize preparedEvents.length config
  let margin := canvasWidth * config.marginFrac
  let drawW := canvasWidth - 2 * margin
  let drawH := canvasHeight - 2 * margin
  let cellW := drawW / (gridSize : ℚ)
  let cellH := drawH / (gridSize : ℚ)
  let initCalls := [Call.strokeCapSquare, Call.noFill]
  match runCells m cellW cellH margin scale true
      (cellAssignments gridSize preparedEvents) seed initCalls [] with
  | .error err => .error err
  | .ok (calls, pts, _) =>
      let finalCalls :=
        if 0 < pts.length then
          calls ++ drawPoints pts 4 200 scale ++
            connectNearestNeighbor m pts 1.2 150 scale
        else calls
      .ok { seed := seed, gridSize := gridSize,
            eventCount := preparedEvents.length, cellWidth := cellW,
            cellHeight := cellH, boundaryPointCount := pts.length,
            calls := finalCalls }

/-- `drawLeWittGrid(g, events, canvasWidth, canvasHeight, config, scale,
usePointConnectionMode)` (src lewitt module).  `config.seed || Date.now()`:
a zero (falsy) configured seed is replaced by the wall clock, modelled by the
explicit `now` argument; `usePCM` is the unused `usePointConnectionMode`
parameter. -/
def drawLeWittGrid (m : MathOps) (events : List NEvent)
    (canvasWidth canvasHeight : ℚ) (config : LewittConfig) (scale : ℚ)
    (usePCM : Bool) (now : ℕ) : Except JsErr RenderResult :=
  let _ := usePCM
  drawLeWittGridSeeded m events canvasWidth canvasHeight config scale
    (if config.seed = 0 then now else config.seed)

/-! ## Claim theorems -/

/-- Claim C7: for every event count and configuration with
`minGridSize ≤ maxGridSize`, the computed grid size equals
`clamp(round(sqrt(min(eventCount, maxEvents))), minGridSize, maxGridSize)`
and lies in `[minGridSize, maxGridSize]`; and with the default configuration
(`minGridSize = 5`, `maxGridSize = 27`, `maxEvents = 530`) an event count of
25 yields grid size 5. -/
theorem C7_grid_size_bounds :
    (∀ (eventCount : ℕ) (config : LewittConfig),
      config.minGridSize ≤ config.maxGridSize →
      calculateGridSize eventCount config =
        clampNat (roundSqrt (min eventCount config.maxEvents))
          config.minGridSize config.maxGridSize ∧
      config.minGridSize ≤ calculateGridSize eventCount config ∧
      calculateGridSize eventCount config ≤ config.maxGridSize) ∧
    calculateGridSize 25 LEWITT_CONFIG = 5 := by
  constructor
  · intro eventCount config h
    refine ⟨rfl, ?_, ?_⟩
    · simp only [calculateGridSize, clampNat]
      omega
    · simp only [calculateGridSize, clampNat]
      omega
  · have h5 : Nat.sqrt 25 = 5 := (Nat.eq_sqrt.mpr (by norm_num)).symm
    simp [calculateGridSize, roundSqrt, clampNat, LEWITT_CONFIG, h5]

/-- Witness for C7 at a concrete input (event count 7, default config). -/
theorem C7_grid_size_bounds_witness :
    LEWITT_CONFIG.minGridSize ≤ LEWITT_CONFIG.maxGridSize ∧
    LEWITT_CONFIG.minGridSize ≤ calculateGridSize 7 LEWITT_CONFIG ∧
    calculateGridSize 7 LEWITT_CONFIG ≤ LEWITT_CONFIG.maxGridSize :=
  ⟨by norm_num [LEWITT_CONFIG],
   (C7_grid_size_bounds.1 7 LEWITT_CONFIG (by norm_num [LEWITT_CONFIG])).2⟩

/-- Claim C2: with a nonzero configured seed the full grid render is a pure
function of (events, configuration, canvas size, scale); in particular two
invocations at different wall-clock times produce the identical ordered
command list (exact equality, hence within any tolerance). -/
theorem C2_render_deterministic (m : MathOps) (events : List NEvent)
    (canvasWidth canvasHeight : ℚ) (config : LewittConfig) (scale : ℚ)
    (usePCM : Bool) (now₁ now₂ : ℕ) (hseed : config.seed ≠ 0) :
    drawLeWittGrid m events canvasWidth canvasHeight config scale usePCM now₁ =
    drawLeWittGrid m events canvasWidth canvasHeight config scale usePCM now₂ := by
  simp only [drawLeWittGrid, if_neg hseed]

/-- Witness for C2 at a concrete input (seed 3, two clock values). -/
theorem C2_render_deterministic_witness :
    ({ LEWITT_CONFIG with seed := 3 } : LewittConfig).seed ≠ 0 ∧
    drawLeWittGrid mathOpsW [] 100 100 { LEWITT_CONFIG with seed := 3 } 1
        true 11 =
      drawLeWittGrid mathOpsW [] 100 100 { LEWITT_CONFIG with seed := 3 } 1
        true 22 :=
  ⟨by simp, C2_render_deterministic mathOpsW [] 100 100 _ 1 true 11 22 (by simp)⟩

/-- Claim C4: under the default configuration, for severities
`0 ≤ s ≤ s' ≤ 1`: `spacing ∈ [3, 24]`, `weight ∈ [0.6, 3.0]`,
`alpha ∈ [40, 200]`, the policy-violation weight bonus is exactly `1.0`, and
the parameters are monotone (spacing does not increase, weight and alpha do
not decrease as severity grows). -/
theorem C4_hatch_params (s s' : ℚ) (h0 : 0 ≤ s) (hss : s ≤ s') (h1 : s' ≤ 1) :
    (3 ≤ (getHatchParams s).spacing ∧ (getHatchParams s).spacing ≤ 24) ∧
    (0.6 ≤ (getHatchParams s).weight ∧ (getHatchParams s).weight ≤ 3) ∧
    ((40 : ℤ) ≤ (getHatchParams s).alpha ∧ (getHatchParams s).alpha ≤ 200) ∧
    LEWITT_CONFIG.hatching.policyViolationWeightBonus = 1 ∧
    ((getHatchParams s').spacing ≤ (getHatchParams s).spacing ∧
     (getHatchParams s).weight ≤ (getHatchParams s').weight ∧
     (getHatchParams s).alpha ≤ (getHatchParams s').alpha) := by
  have hs1 : s ≤ 1 := le_trans hss h1
  simp only [getHatchParams, LEWITT_CONFIG, clamp, lerp, jsRound]
  refine ⟨⟨le_max_left _ _, ?_⟩, ⟨?_, ?_⟩, ⟨?_, ?_⟩, by norm_num, ?_, ?_, ?_⟩
  · exact max_le (by norm_num) (min_le_left _ _)
  · linarith
  · linarith
  · rw [Int.le_floor]
    push_cast
    linarith
  · calc ⌊(40 : ℚ) + (200 - 40) * s + 1 / 2⌋ ≤ ⌊(201 : ℚ) - 1/2⌋ :=
          Int.floor_le_floor (by linarith)
      _ ≤ 200 := by norm_num
  · exact max_le_max (le_refl _) (min_le_min (le_refl _) (by linarith))
  · linarith
  · exact Int.floor_le_floor (by linarith)

/-- Witness for C4 at `s = 1/4 ≤ s' = 1/2`. -/
theorem C4_hatch_params_witness :
    (0 : ℚ) ≤ 1/4 ∧ (1/4 : ℚ) ≤ 1/2 ∧ (1/2 : ℚ) ≤ 1 ∧
    (3 ≤ (getHatchParams (1/4)).spacing ∧ (getHatchParams (1/4)).spacing ≤ 24) ∧
    (getHatchParams (1/2)).spacing ≤ (getHatchParams (1/4)).spacing :=
  ⟨by norm_num, by norm_num, by norm_num,
   (C4_hatch_params (1/4) (1/2) (by norm_num) (by norm_num) (by norm_num)).1,
   (C4_hatch_params (1/4) (1/2) (by norm_num) (by norm_num)
     (by norm_num)).2.2.2.2.1⟩

/-- An all-absent raw record, used to build concrete events. -/
def rawBase : RawEvent :=
  ⟨0, none, "", none, none, none, none, none, none, none, none, none, none⟩

/-- Claim C3: the computed severity follows the priority ladder with first
match winning: `policy_violation` 1.0; edit flags undo 0.15 / redo 0.25 /
paste 0.85 (paste regardless of delta); other edits
`max(0.1, clamp(sqrt(log1p(added+deleted)/log1p 30000), 0, 1))` — in
particular exactly 0.1 at zero added and deleted chars; fixed per-kind
constants; 0.5 otherwise. -/
theorem C3_severity_rules (m : MathOps) (e : NEvent) :
    (e.event = "policy_violation" → calculateSeverity m e = 1) ∧
    (e.event = "edit" →
      (e.flags.getD ⟨false, false, false⟩).is_undo_like = true →
      calculateSeverity m e = 0.15) ∧
    (e.event = "edit" →
      (e.flags.getD ⟨false, false, false⟩).is_undo_like = false →
      (e.flags.getD ⟨false, false, false⟩).is_redo_like = true →
      calculateSeverity m e = 0.25) ∧
    (e.event = "edit" →
      (e.flags.getD ⟨false, false, false⟩).is_undo_like = false →
      (e.flags.getD ⟨false, false, false⟩).is_redo_like = false →
      (e.flags.getD ⟨false, false, false⟩).is_paste_like = true →
      calculateSeverity m e = 0.85) ∧
    (e.event = "edit" →
      (e.flags.getD ⟨false, false, false⟩).is_undo_like = false →
      (e.flags.getD ⟨false, false, false⟩).is_redo_like = false →
      (e.flags.getD ⟨false, false, false⟩).is_paste_like = false →
      calculateSeverity m e =
        max 0.1 (clamp (m.sqrt (m.log1p
          (((e.delta.getD ⟨0, 0, 0, 0⟩).added_chars : ℚ) +
            ((e.delta.getD ⟨0, 0, 0, 0⟩).deleted_chars : ℚ)) /
          m.log1p 30000)) 0 1)) ∧
    (e.event = "edit" →
      (e.flags.getD ⟨false, false, false⟩).is_undo_like = false →
      (e.flags.getD ⟨false, false, false⟩).is_redo_like = false →
      (e.flags.getD ⟨false, false, false⟩).is_paste_like = false →
      (e.delta.getD ⟨0, 0, 0, 0⟩).added_chars = 0 →
      (e.delta.getD ⟨0, 0, 0, 0⟩).deleted_chars = 0 →
      m.log1p 0 = 0 → m.sqrt 0 = 0 →
      calculateSeverity m e = 0.1) ∧
    (e.event = "snapshot" → calculateSeverity m e = 0.2) ∧
    (e.event = "session_start" → calculateSeverity m e = 0.4) ∧
    (e.event = "session_pause" → calculateSeverity m e = 0.3) ∧
    (e.event = "session_resume" → calculateSeverity m e = 0.35) ∧
    (e.event = "mode_change" → calculateSeverity m e = 0.3) ∧
    (e.event ∉ ["policy_violation", "edit", "snapshot", "session_start",
        "session_pause", "session_resume", "mode_change"] →
      calculateSeverity m e = 0.5) := by
  refine ⟨?_, ?_, ?_, ?_, ?_, ?_, ?_, ?_, ?_, ?_, ?_, ?_⟩
  · intro h; simp [calculateSeverity, h]
  · intro h hu; simp [calculateSeverity, h, hu]
  · intro h hu hr; simp [calculateSeverity, h, hu, hr]
  · intro h hu hr hp; simp [calculateSeverity, h, hu, hr, hp]
  · intro h hu hr hp; simp [calculateSeverity, h, hu, hr, hp]
  · intro h hu hr hp ha hd hl hs
    simp [calculateSeverity, h, hu, hr, hp, ha, hd, hl, hs, clamp]
    norm_num
  · intro h; simp [calculateSeverity, h]
  · intro h; simp [calculateSeverity, h]
  · intro h; simp [calculateSeverity, h]
  · intro h; simp [calculateSeverity, h]
  · intro h; simp [calculateSeverity, h]
  · intro h
    simp only [List.mem_cons, List.not_mem_nil, or_false, not_or] at h
    obtain ⟨h1, h2, h3, h4, h5, h6, h7⟩ := h
    simp [calculateSeverity, h1, h2, h3, h4, h5, h6, h7]

/-- Witness for C3: a policy-violation event scores exactly 1 and a
zero-delta edit scores exactly 0.1. -/
theorem C3_severity_rules_witness :
    calculateSeverity mathOpsW
        (normalizeEvent { rawBase with event := "policy_violation" }) = 1 ∧
    calculateSeverity mathOpsW
        (normalizeEvent { rawBase with event := "edit" }) = 0.1 :=
  ⟨(C3_severity_rules mathOpsW _).1 (by simp [normalizeEvent, rawBase]),
   (C3_severity_rules mathOpsW _).2.2.2.2.2.1 (by simp [normalizeEvent, rawBase])
     (by simp [normalizeEvent, rawBase]) (by simp [normalizeEvent, rawBase])
     (by simp [normalizeEvent, rawBase]) (by simp [normalizeEvent, rawBase])
     (by simp [normalizeEvent, rawBase]) rfl rfl⟩

/-- A half-plane step keeps the full interval `(0, 1)` when its constraint
holds at both endpoints (`p·0 ≤ q` and `p·1 ≤ q`). -/
theorem lbStep_keep (p q : ℚ) (h0 : 0 ≤ q) (h1 : p ≤ q) :
    lbStep p q (0, 1) = some (0, 1) := by
  have hle : p < 0 → q / p ≤ 0 := fun hp =>
    div_nonpos_of_nonneg_of_nonpos h0 hp.le
  have hge : 0 < p → 1 ≤ q / p := fun hp => (le_div_iff₀ hp).mpr (by linarith)
  simp only [lbStep]
  split_ifs with hp0 hq hpneg ht1 ht0 hs0 hs1
  · exact absurd hq (not_lt.mpr h0)
  · rfl
  · exact absurd ht1 (not_lt.mpr (by linarith [hle hpneg]))
  · exact absurd ht0 (not_lt.mpr (hle hpneg))
  · rfl
  · exact absurd hs0 (not_lt.mpr (by
      have hp : 0 < p := lt_of_le_of_ne (not_lt.mp hpneg) (Ne.symm hp0)
      linarith [hge hp]))
  · exact absurd hs1 (not_lt.mpr (by
      have hp : 0 < p := lt_of_le_of_ne (not_lt.mp hpneg) (Ne.symm hp0)
      linarith [hge hp]))
  · rfl

/-- Soundness of one half-plane step: on success the interval narrows, stays
inside `[0, 1]` and ordered, and the step's constraint `p·t ≤ q` holds
throughout the new interval. -/
theorem lbStep_sound {p q t0 t1 t0' t1' : ℚ} (h00 : 0 ≤ t0) (h01 : t0 ≤ t1)
    (h11 : t1 ≤ 1) (h : lbStep p q (t0, t1) = some (t0', t1')) :
    0 ≤ t0' ∧ t0' ≤ t1' ∧ t1' ≤ 1 ∧ t0 ≤ t0' ∧ t1' ≤ t1 ∧
      ∀ t, t0' ≤ t → t ≤ t1' → p * t ≤ q := by
  simp only [lbStep] at h
  split_ifs at h with hp0 hq hpneg ht1 ht0 hs0 hs1
  · injection h with h'
    injection h' with e1 e2
    subst e1; subst e2
    exact ⟨h00, h01, h11, le_refl _, le_refl _, fun t _ _ => by
      rw [hp0]; simpa using not_lt.mp hq⟩
  · injection h with h'
    injection h' with e1 e2
    subst e1; subst e2
    refine ⟨by linarith, not_lt.mp ht1, h11, ht0.le, le_refl _,
      fun t hta htb => ?_⟩
    calc p * t ≤ p * (q / p) := mul_le_mul_of_nonpos_left hta hpneg.le
      _ = q := by field_simp
  · injection h with h'
    injection h' with e1 e2
    subst e1; subst e2
    refine ⟨h00, h01, h11, le_refl _, le_refl _, fun t hta htb => ?_⟩
    have hq' : q / p ≤ t := le_trans (not_lt.mp ht0) hta
    calc p * t ≤ p * (q / p) := mul_le_mul_of_nonpos_left hq' hpneg.le
      _ = q := by field_simp
  · injection h with h'
    injection h' with e1 e2
    subst e1; subst e2
    have hp : 0 < p := lt_of_le_of_ne (not_lt.mp hpneg) (Ne.symm hp0)
    refine ⟨h00, not_lt.mp hs0, by linarith, le_refl _, hs1.le,
      fun t hta htb => ?_⟩
    calc p * t ≤ p * (q / p) := mul_le_mul_of_nonneg_left htb hp.le
      _ = q := by field_simp
  · injection h with h'
    injection h' with e1 e2
    subst e1; subst e2
    have hp : 0 < p := lt_of_le_of_ne (not_lt.mp hpneg) (Ne.symm hp0)
    refine ⟨h00, h01, h11, le_refl _, le_refl _, fun t hta htb => ?_⟩
    have ht : t ≤ q / p := le_trans htb (not_lt.mp hs1)
    calc p * t ≤ p * (q / p) := mul_le_mul_of_nonneg_left ht hp.le
      _ = q := by field_simp

/-- Soundness of the full four-step chain: on success the final interval is
an ordered subinterval of `[0, 1]` on which all four half-plane constraints
hold. -/
theorem lbChain_sound {dx dy x1 y1 rx ry rw rh t0 t1 : ℚ}
    (h : lbChain dx dy x1 y1 rx ry rw rh = some (t0, t1)) :
    0 ≤ t0 ∧ t0 ≤ t1 ∧ t1 ≤ 1 ∧
      ∀ t, t0 ≤ t → t ≤ t1 →
        (-dx) * t ≤ x1 - rx ∧ dx * t ≤ rx + rw - x1 ∧
        (-dy) * t ≤ y1 - ry ∧ dy * t ≤ ry + rh - y1 := by
  unfold lbChain at h
  rw [Option.bind_eq_some] at h
  obtain ⟨⟨a0, a1⟩, h3, h4⟩ := h
  rw [Option.bind_eq_some] at h3
  obtain ⟨⟨b0, b1⟩, h2, h3⟩ := h3
  rw [Option.bind_eq_some] at h2
  obtain ⟨⟨c0, c1⟩, h1, h2⟩ := h2
  obtain ⟨hc0, hc01, hc1, _, _, hC1⟩ :=
    lbStep_sound (le_refl 0) zero_le_one (le_refl 1) h1
  obtain ⟨hb0, hb01, hb1, hbl, hbr, hC2⟩ := lbStep_sound hc0 hc01 hc1 h2
  obtain ⟨ha0, ha01, ha1, hal, har, hC3⟩ := lbStep_sound hb0 hb01 hb1 h3
  obtain ⟨ht0, ht01, ht1, htl, htr, hC4⟩ := lbStep_sound ha0 ha01 ha1 h4
  refine ⟨ht0, ht01, ht1, fun t hta htb => ?_⟩
  have hc : c0 ≤ t ∧ t ≤ c1 := ⟨by linarith, by linarith⟩
  have hb : b0 ≤ t ∧ t ≤ b1 := ⟨by linarith, by linarith⟩
  have ha : a0 ≤ t ∧ t ≤ a1 := ⟨by linarith, by linarith⟩
  exact ⟨hC1 t hc.1 hc.2, hC2 t hb.1 hb.2, hC3 t ha.1 ha.2, hC4 t hta htb⟩

/-- Claim C5: the Liang–Barsky clip returns a segment fully inside the
closed rectangle unchanged; returns `none` for a segment that never meets
the rectangle; and any returned segment is a parametric sub-segment of the
input whose endpoints lie within (or on the boundary of) the rectangle. -/
theorem C5_liang_barsky (x1 y1 x2 y2 rx ry rw rh : ℚ) :
    (pointInRect x1 y1 ⟨rx, ry, rw, rh⟩ → pointInRect x2 y2 ⟨rx, ry, rw, rh⟩ →
      clipLineToRect x1 y1 x2 y2 rx ry rw rh = some (x1, y1, x2, y2)) ∧
    ((∀ t : ℚ, 0 ≤ t → t ≤ 1 →
        ¬ pointInRect (x1 + t * (x2 - x1)) (y1 + t * (y2 - y1))
          ⟨rx, ry, rw, rh⟩) →
      clipLineToRect x1 y1 x2 y2 rx ry rw rh = none) ∧
    (∀ a b c d, clipLineToRect x1 y1 x2 y2 rx ry rw rh = some (a, b, c, d) →
      ∃ t0 t1 : ℚ, 0 ≤ t0 ∧ t0 ≤ t1 ∧ t1 ≤ 1 ∧
        a = x1 + t0 * (x2 - x1) ∧ b = y1 + t0 * (y2 - y1) ∧
        c = x1 + t1 * (x2 - x1) ∧ d = y1 + t1 * (y2 - y1) ∧
        pointInRect a b ⟨rx, ry, rw, rh⟩ ∧
        pointInRect c d ⟨rx, ry, rw, rh⟩) := by
  have hsub : ∀ a b c d, clipLineToRect x1 y1 x2 y2 rx ry rw rh = some (a, b, c, d) →
      ∃ t0 t1 : ℚ, 0 ≤ t0 ∧ t0 ≤ t1 ∧ t1 ≤ 1 ∧
        a = x1 + t0 * (x2 - x1) ∧ b = y1 + t0 * (y2 - y1) ∧
        c = x1 + t1 * (x2 - x1) ∧ d = y1 + t1 * (y2 - y1) ∧
        pointInRect a b ⟨rx, ry, rw, rh⟩ ∧
        pointInRect c d ⟨rx, ry, rw, rh⟩ := by
    intro a b c d h
    simp only [clipLineToRect] at h
    rcases hch : lbChain (x2 - x1) (y2 - y1) x1 y1 rx ry rw rh with _ | ⟨t0, t1⟩
    · rw [hch] at h; exact absurd h (by simp)
    · rw [hch] at h
      obtain ⟨h0, h01, h1, hC⟩ := lbChain_sound hch
      obtain ⟨C10, C20, C30, C40⟩ := hC t0 (le_refl _) h01
      obtain ⟨C11, C21, C31, C41⟩ := hC t1 h01 (le_refl _)
      injection h with h'
      obtain ⟨ha, hb, hc, hd⟩ : a = x1 + t0 * (x2 - x1) ∧ b = y1 + t0 * (y2 - y1) ∧
          c = x1 + t1 * (x2 - x1) ∧ d = y1 + t1 * (y2 - y1) := by
        refine ⟨congrArg (fun p => p.1) h'.symm, ?_, ?_, ?_⟩
        · exact congrArg (fun p => p.2.1) h'.symm
        · exact congrArg (fun p => p.2.2.1) h'.symm
        · exact congrArg (fun p => p.2.2.2) h'.symm
      subst ha hb hc hd
      exact ⟨t0, t1, h0, h01, h1, rfl, rfl, rfl, rfl,
        ⟨by nlinarith, by nlinarith, by nlinarith, by nlinarith⟩,
        ⟨by nlinarith, by nlinarith, by nlinarith, by nlinarith⟩⟩
  refine ⟨?_, ?_, hsub⟩
  · rintro ⟨p1a, p1b, p1c, p1d⟩ ⟨p2a, p2b, p2c, p2d⟩
    simp only [clipLineToRect, lbChain]
    rw [lbStep_keep _ _ (by linarith) (by linarith)]
    rw [Option.some_bind, lbStep_keep _ _ (by linarith) (by linarith)]
    rw [Option.some_bind, lbStep_keep _ _ (by linarith) (by linarith)]
    rw [Option.some_bind, lbStep_keep _ _ (by linarith) (by linarith)]
    norm_num
  · intro hout
    rcases h : clipLineToRect x1 y1 x2 y2 rx ry rw rh with _ | ⟨a, b, c, d⟩
    · rfl
    · obtain ⟨t0, t1, h0, h01, h1, ha, hb, _, _, hin, _⟩ := hsub a b c d h
      exact absurd (ha ▸ hb ▸ hin) (hout t0 h0 (le_trans h01 h1))

/-- Witness for C5: a segment fully inside `[0,10]×[0,10]` is returned
unchanged. -/
theorem C5_liang_barsky_witness :
    pointInRect 1 1 ⟨0, 0, 10, 10⟩ ∧ pointInRect 2 3 ⟨0, 0, 10, 10⟩ ∧
    clipLineToRect 1 1 2 3 0 0 10 10 = some (1, 1, 2, 3) :=
  ⟨by norm_num [pointInRect], by norm_num [pointInRect],
   (C5_liang_barsky 1 1 2 3 0 0 10 10).1 (by norm_num [pointInRect])
     (by norm_num [pointInRect])⟩

/-- Claim C6: the rectangle-with-hole clip — both endpoints inside the hole
suppresses the segment entirely; no boundary intersection (and not both
endpoints inside) draws exactly the whole segment; with two or more
deduplicated intersections only the pre-entry and post-exit sub-segments are
drawn, each gated on its own endpoint being outside the hole and the
parameter being more than 1e-3 from that endpoint; with exactly one
intersection, the half not originating inside the hole is drawn. -/
theorem C6_hole_clip (x1 y1 x2 y2 : ℚ) (r : JsRect) :
    (pointInRect x1 y1 r → pointInRect x2 y2 r →
      drawLineWithRectHole x1 y1 x2 y2 r = []) ∧
    (¬ (pointInRect x1 y1 r ∧ pointInRect x2 y2 r) →
      holeIntersections x1 y1 x2 y2 r = [] →
      drawLineWithRectHole x1 y1 x2 y2 r = [(x1, y1, x2, y2)]) ∧
    (¬ (pointInRect x1 y1 r ∧ pointInRect x2 y2 r) →
      2 ≤ (holeUnique x1 y1 x2 y2 r).length →
      drawLineWithRectHole x1 y1 x2 y2 r =
        (if ¬ pointInRect x1 y1 r ∧
            (holeUnique x1 y1 x2 y2 r).headI.t > 0.001 then
          [(x1, y1, (holeUnique x1 y1 x2 y2 r).headI.x,
            (holeUnique x1 y1 x2 y2 r).headI.y)]
         else []) ++
        (if ¬ pointInRect x2 y2 r ∧
            (holeUnique x1 y1 x2 y2 r).getLastI.t < 0.999 then
          [((holeUnique x1 y1 x2 y2 r).getLastI.x,
            (holeUnique x1 y1 x2 y2 r).getLastI.y, x2, y2)]
         else [])) ∧
    (¬ (pointInRect x1 y1 r ∧ pointInRect x2 y2 r) →
      (holeUnique x1 y1 x2 y2 r).length = 1 →
      drawLineWithRectHole x1 y1 x2 y2 r =
        (if pointInRect x1 y1 r then
          [((holeUnique x1 y1 x2 y2 r).headI.x,
            (holeUnique x1 y1 x2 y2 r).headI.y, x2, y2)]
         else
          [(x1, y1, (holeUnique x1 y1 x2 y2 r).headI.x,
            (holeUnique x1 y1 x2 y2 r).headI.y)])) := by
  have hfold : dedupeInters ((holeIntersections x1 y1 x2 y2 r).mergeSort
      fun a b => decide (a.t ≤ b.t)) = holeUnique x1 y1 x2 y2 r := rfl
  have hemp : holeIntersections x1 y1 x2 y2 r = [] →
      holeUnique x1 y1 x2 y2 r = [] := by
    intro hie
    rw [holeUnique, hie]
    simp [List.mergeSort, dedupeInters]
  refine ⟨?_, ?_, ?_, ?_⟩
  · intro h1 h2
    simp [drawLineWithRectHole, h1, h2]
  · intro hni hie
    simp [drawLineWithRectHole, hni, hie]
  · intro hni hlen
    have hie : ¬ holeIntersections x1 y1 x2 y2 r = [] := by
      intro hie
      rw [hemp hie] at hlen
      simp at hlen
    simp only [drawLineWithRectHole, hfold]
    rw [if_neg (by simpa using hni), if_neg hie, if_pos hlen]
    simp [decide_eq_true_eq]
  · intro hni hlen
    have hie : ¬ holeIntersections x1 y1 x2 y2 r = [] := by
      intro hie
      rw [hemp hie] at hlen
      simp at hlen
    have h2 : ¬ 2 ≤ (holeUnique x1 y1 x2 y2 r).length := by omega
    simp only [drawLineWithRectHole, hfold]
    rw [if_neg (by simpa using hni), if_neg hie, if_neg h2, if_pos hlen]
    by_cases hp1 : pointInRect x1 y1 r
    · simp [hp1]
    · simp [hp1]

/-- Witness for C6 at concrete inputs: the hole `[4,6]×[4,6]` suppresses the
inside segment `(9/2,9/2)-(5,5)` entirely, and leaves the far-away segment
`(0,0)-(1,1)` whole. -/
theorem C6_hole_clip_witness :
    drawLineWithRectHole (9/2) (9/2) 5 5 ⟨4, 4, 2, 2⟩ = [] ∧
    drawLineWithRectHole 0 0 1 1 ⟨4, 4, 2, 2⟩ = [(0, 0, 1, 1)] :=
  ⟨(C6_hole_clip (9/2) (9/2) 5 5 ⟨4, 4, 2, 2⟩).1 (by norm_num [pointInRect])
     (by norm_num [pointInRect]),
   (C6_hole_clip 0 0 1 1 ⟨4, 4, 2, 2⟩).2.1
     (by norm_num [pointInRect])
     (by norm_num [holeIntersections])⟩

/-- The serpentine traversal never repeats a cell. -/
theorem traversal_nodup (n : ℕ) : (traversal n).Nodup := by
  rw [traversal, List.nodup_flatMap]
  constructor
  · intro row hrow
    apply List.Nodup.map_on
    · intro a ha b hb hab
      by_cases h : row % 2 = 0
      · simpa [h, Prod.ext_iff] using hab
      · have ha' := List.mem_range.mp ha
        have hb' := List.mem_range.mp hb
        simp only [h, if_false, Prod.ext_iff, if_neg h] at hab
        omega
    · exact List.nodup_range n
  · refine List.Pairwise.imp ?_ (List.pairwise_lt_range n)
    intro a b hab x hxa hxb
    simp only [List.mem_map] at hxa hxb
    obtain ⟨ca, _, rfl⟩ := hxa
    obtain ⟨cb, _, hx⟩ := hxb
    have : b = a := congrArg Prod.fst hx
    omega

/-- Every in-range cell is visited by the serpentine traversal. -/
theorem traversal_mem (n rr cc : ℕ) (hr : rr < n) (hc : cc < n) :
    (rr, cc) ∈ traversal n := by
  rw [traversal, List.mem_flatMap]
  refine ⟨rr, List.mem_range.mpr hr, ?_⟩
  rw [List.mem_map]
  by_cases h : rr % 2 = 0
  · exact ⟨cc, List.mem_range.mpr hc, by simp [h]⟩
  · refine ⟨n - 1 - cc, List.mem_range.mpr (by omega), ?_⟩
    show (rr, if rr % 2 = 0 then n - 1 - cc else n - 1 - (n - 1 - cc)) = (rr, cc)
    rw [if_neg h]
    have hcc : n - 1 - (n - 1 - cc) = cc := by omega
    rw [hcc]

/-- A `flatMap` over `range n` whose function is empty except at one index
collapses to that index's list. -/
theorem flatMap_range_single {β : Type} (n rr : ℕ) (hr : rr < n)
    (g : ℕ → List β) (hg : ∀ x, x < n → x ≠ rr → g x = []) :
    (List.range n).flatMap g = g rr := by
  induction n with
  | zero => omega
  | succ k ih =>
    rw [List.range_succ, List.flatMap_append]
    by_cases h : rr = k
    · subst h
      have hnil : (List.range rr).flatMap g = [] :=
        List.flatMap_eq_nil_iff.mpr fun x hx =>
          hg x (Nat.lt_succ_of_lt (List.mem_range.mp hx))
            (by have := List.mem_range.mp hx; omega)
      simp [hnil]
    · have hr' : rr < k := by omega
      rw [ih hr' fun x hx hne => hg x (by omega) hne]
      have hk : g k = [] := hg k (by omega) (Ne.symm h)
      simp [hk]

/-- The column sequence the traversal visits within one row. -/
theorem traversal_row_cols (n rr : ℕ) (hr : rr < n) :
    ((traversal n).filter (fun p => p.1 == rr)).map Prod.snd =
      (List.range n).map (fun colIdx =>
        if rr % 2 = 0 then colIdx else n - 1 - colIdx) := by
  rw [traversal, List.filter_flatMap]
  rw [flatMap_range_single n rr hr _ (fun x hx hne => ?_)]
  · rw [List.filter_eq_self.mpr, List.map_map]
    · rfl
    · intro a ha
      simp only [List.mem_map] at ha
      obtain ⟨c, _, rfl⟩ := ha
      simp
  · apply List.filter_eq_nil_iff.mpr
    intro a ha
    simp only [List.mem_map] at ha
    obtain ⟨c, _, rfl⟩ := ha
    simp [hne]

/-- Generic shape of the fold that appends `g eventIdx a` and increments
`eventIdx`. -/
theorem foldl_counter {α β : Type _} (g : ℕ → α → β) :
    ∀ (l : List α) (acc : List β) (k : ℕ),
      (l.foldl (fun (st : List β × ℕ) a => (st.1 ++ [g st.2 a], st.2 + 1))
        (acc, k)).1 = acc ++ (List.enumFrom k l).map (fun p => g p.1 p.2) := by
  intro l
  induction l with
  | nil => intro acc k; simp
  | cons a t ih =>
      intro acc k
      simp only [List.foldl_cons, List.enumFrom]
      rw [ih]
      simp

/-- Claim C8: for grid size `n` the traversal visits exactly `n·n` cells,
each `(row, column)` pair with `row, column < n` exactly once; within an even
row the visited columns are strictly increasing and within an odd row
strictly decreasing; and the `k`-th visited cell consumes prepared event `k`
(`none` once the prepared list is exhausted). -/
theorem C8_boustrophedon (n : ℕ) (prepared : List NEvent) :
    (traversal n).length = n * n ∧
    (∀ rr cc : ℕ, rr < n → cc < n →
      (traversal n).countP (fun p => decide (p = (rr, cc))) = 1) ∧
    (∀ rr : ℕ, rr < n →
      (rr % 2 = 0 →
        (((traversal n).filter (fun p => p.1 == rr)).map Prod.snd).Pairwise
          (· < ·)) ∧
      (rr % 2 = 1 →
        (((traversal n).filter (fun p => p.1 == rr)).map Prod.snd).Pairwise
          (· > ·))) ∧
    cellAssignments n prepared =
      (traversal n).enum.map (fun p => (p.2, prepared.get? p.1)) := by
  refine ⟨?_, ?_, ?_, ?_⟩
  · simp [traversal, List.length_flatMap, Function.comp_def, List.map_const',
      List.sum_replicate, smul_eq_mul]
  · intro rr cc hr hc
    have h1 := List.count_eq_one_of_mem (traversal_nodup n)
      (traversal_mem n rr cc hr hc)
    simpa [List.count] using h1
  · intro rr hr
    rw [traversal_row_cols n rr hr]
    constructor
    · intro h
      simp only [h, if_true]
      simpa using List.pairwise_lt_range n
    · intro h
      have h' : ¬ rr % 2 = 0 := by omega
      simp only [h', if_false]
      rw [List.pairwise_map, List.pairwise_iff_getElem]
      intro i j hi hj hij
      simp only [List.getElem_range] at *
      have hi' : i < n := by simpa using hi
      have hj' : j < n := by simpa using hj
      omega
  · rw [cellAssignments, foldl_counter (fun k pos => (pos, prepared.get? k))]
    rfl

/-- Witness for C8 at `n = 2`: cell `(1, 0)` is visited exactly once and the
odd row 1 is traversed right-to-left. -/
theorem C8_boustrophedon_witness :
    (traversal 2).countP (fun p => decide (p = (1, 0))) = 1 ∧
    (((traversal 2).filter (fun p => p.1 == 1)).map Prod.snd).Pairwise
      (· > ·) :=
  ⟨(C8_boustrophedon 2 []).2.1 1 0 (by decide) (by decide),
   ((C8_boustrophedon 2 []).2.2.1 1 (by decide)).2 (by decide)⟩

/-! ## Frame analysis of `prepareEvents` (claims C9, C10) -/

/-- Erase the two annotation properties (`hasSnapshotAfter`,
`aiPromptLength`); two events are equal under `clearAnnot` iff they agree on
every other field. -/
def clearAnnot (e : NEvent) : NEvent :=
  { e with hasSnapshotAfter := none, aiPromptLength := none }

theorem set_get?_self {α : Type _} :
    ∀ (l : List α) (i : ℕ) (a : α), l.get? i = some a → l.set i a = l := by
  intro l
  induction l with
  | nil => intro i a h; simp at h
  | cons x t ih =>
      intro i a h
      cases i with
      | zero =>
          simp only [List.get?] at h
          injection h with h'
          subst h'
          rfl
      | succ j =>
          simp only [List.get?] at h
          simp only [List.set]
          rw [ih j a h]

/-- Setting a heap slot to a value with the same annotation-free image leaves
the annotation-free image of the heap unchanged. -/
theorem map_clearAnnot_set (h : List NEvent) (i : ℕ) (a a' : NEvent)
    (hget : h.get? i = some a) (hca : clearAnnot a' = clearAnnot a) :
    (h.set i a').map clearAnnot = h.map clearAnnot := by
  rw [List.map_set, hca]
  apply set_get?_self
  rw [List.get?_eq_getElem?, List.getElem?_map, ← List.get?_eq_getElem?, hget]
  rfl

theorem markSnapshots_aux (ps : List (ℕ × ℕ)) :
    ∀ heap : List NEvent,
      ((ps.foldl (fun h ij =>
          match h.get? ij.1, h.get? ij.2 with
          | some a, some b =>
              if a.event = "edit" ∧ b.event = "snapshot" then
                h.set ij.1 { a with hasSnapshotAfter := some true }
              else h
          | _, _ => h) heap).map clearAnnot) = heap.map clearAnnot := by
  induction ps with
  | nil => intro heap; rfl
  | cons ij t ih =>
      intro heap
      rw [List.foldl_cons, ih]
      rcases hget1 : heap.get? ij.1 with _ | a
      · simp [hget1]
      · rcases hget2 : heap.get? ij.2 with _ | b
        · simp [hget1, hget2]
        · simp only [hget1, hget2]
          split_ifs with hc
          · exact map_clearAnnot_set heap ij.1 a _ hget1 rfl
          · rfl

/-- The snapshot-marking pass changes only annotation fields of the heap. -/
theorem markSnapshots_clearAnnot (heap : List NEvent) (ids : List ℕ) :
    (markSnapshots heap ids).map clearAnnot = heap.map clearAnnot :=
  markSnapshots_aux (ids.zip ids.tail) heap

theorem attachAiPrompt_aux (ids : List ℕ) :
    ∀ st : List NEvent × ℕ,
      ((ids.foldl (fun (st : List NEvent × ℕ) i =>
          match st.1.get? i with
          | none => st
          | some evt =>
              if evt.event = "ai_prompt" ∧ evt.prompt.getD "" ≠ "" then
                (st.1, (evt.prompt.getD "").length)
              else if evt.event = "mode_change" ∧ evt.toMode = some "human" then
                (st.1, 0)
              else if evt.event = "edit" ∧ evt.origin_mode = some "ai" ∧
                  0 < st.2 then
                (st.1.set i { evt with aiPromptLength := some st.2 }, st.2)
              else st) st).1).map clearAnnot = (st.1).map clearAnnot := by
  induction ids with
  | nil => intro st; rfl
  | cons i t ih =>
      intro st
      rw [List.foldl_cons, ih]
      rcases hget : st.1.get? i with _ | evt
      · simp [hget]
      · simp only [hget]
        split_ifs with h1 h2 h3
        · rfl
        · rfl
        · exact map_clearAnnot_set st.1 i evt _ hget rfl
        · rfl

/-- The AI-prompt-attribution pass changes only annotation fields of the
heap. -/
theorem attachAiPrompt_clearAnnot (heap : List NEvent) (ids : List ℕ) :
    (attachAiPrompt heap ids).map clearAnnot = heap.map clearAnnot :=
  attachAiPrompt_aux ids (heap, 0)

/-- Claim C10 (amended): `prepareEvents` mutates the input events in place —
but only their `hasSnapshotAfter`/`aiPromptLength` annotation properties:
the input array, stripped of the two annotations, is unchanged (same length,
order, and every other field of every event). -/
theorem C10_prepare_mutates_only_annotations (l : List NEvent) :
    (heapAfterPrepare l).map clearAnnot = l.map clearAnnot := by
  rw [heapAfterPrepare, attachAiPrompt_clearAnnot, markSnapshots_clearAnnot]

/-- A parsed `edit` event at `ts = 1` (concrete pipeline value). -/
def c10edit : NEvent := parseLine mathOpsW { rawBase with ts := 1, event := "edit" }

/-- A parsed `snapshot` event at `ts = 2` (concrete pipeline value). -/
def c10snap : NEvent :=
  parseLine mathOpsW { rawBase with ts := 2, event := "snapshot" }

/-- Counterexample to claim C10 as stated: preparing `[edit, snapshot]`
mutates the input events — the edit object carries `hasSnapshotAfter = true`
after the call, so the input is not left unchanged. -/
theorem C10_input_mutated :
    heapAfterPrepare [c10edit, c10snap] ≠ [c10edit, c10snap] := by
  have heval : heapAfterPrepare [c10edit, c10snap] =
      [{ c10edit with hasSnapshotAfter := some true }, c10snap] := by
    simp [heapAfterPrepare, sortedIdx, markSnapshots, attachAiPrompt,
      c10edit, c10snap, parseLine, normalizeEvent, rawBase,
      List.mergeSort, List.enum, List.enumFrom, List.get?]
  rw [heval]
  intro hcontra
  simp [c10edit, parseLine, normalizeEvent, rawBase] at hcontra

/-- Raw `ai_prompt` record with a nonempty prompt (claim C9 failing input,
first record). -/
def c9prompt : RawEvent :=
  { rawBase with ts := 1, event := "ai_prompt", prompt := some "hello" }

/-- Raw AI `edit` record following it (claim C9 failing input, second
record). -/
def c9edit : RawEvent :=
  { rawBase with ts := 2, event := "edit", origin_mode := some "ai" }

/-- Claim C9 at the failing input: `normalizeEvent` does not carry `prompt`
(or `to`) over from the raw record, so for normalizer-produced events the
running prompt length is never set and the AI edit receives no
`aiPromptLength` — the code contradicts the claimed (and intended)
attribution. -/
theorem C9_normalizer_drops_prompt :
    (normalizeEvent c9prompt).prompt = none ∧
    (normalizeEvent c9prompt).toMode = none ∧
    ((heapAfterPrepare
        [parseLine mathOpsW c9prompt, parseLine mathOpsW c9edit]).map
      (fun e => e.aiPromptLength)) = [none, none] := by
  refine ⟨rfl, rfl, ?_⟩
  simp [heapAfterPrepare, sortedIdx, markSnapshots, attachAiPrompt,
    parseLine, normalizeEvent, rawBase, c9prompt, c9edit,
    List.mergeSort, List.enum, List.enumFrom, List.get?]

/-- Claim C1 at the failing input: an empty event set still clamps the grid
size to `minGridSize`, but the render then aborts with the TypeError raised
by `console.log(event.aiPromptLength)` on the first (null-event) cell —
rather than completing an all-empty-bordered grid. -/
theorem C1_empty_render_crashes :
    calculateGridSize 0 LEWITT_CONFIG = LEWITT_CONFIG.minGridSize ∧
    drawLeWittGrid mathOpsW [] 100 100 LEWITT_CONFIG 1 true 7 =
      Except.error JsErr.nullRead := by
  have hgrid : calculateGridSize 0 LEWITT_CONFIG = 5 := by
    simp [calculateGridSize, roundSqrt, clampNat, LEWITT_CONFIG]
  refine ⟨by rw [hgrid]; rfl, ?_⟩
  have hprep : prepareEvents [] LEWITT_CONFIG = [] := by
    simp [prepareEvents, sortedIdx, markSnapshots, attachAiPrompt,
      LEWITT_CONFIG, List.mergeSort]
  have hhead : cellAssignments 5 [] =
      ((0, 0), (none : Option NEvent)) :: (cellAssignments 5 []).tail := by
    decide
  simp only [drawLeWittGrid, drawLeWittGridSeeded, hprep, List.length_nil,
    hgrid]
  rw [if_pos (by rfl : LEWITT_CONFIG.seed = 0)]
  rw [hhead]
  simp [runCells, drawCell]

end Craftlog
